import Mathlib

/-!
Verification of the TCP load balancer in `loadbalancer/loadbalancer.py`
(`class UniversalLoadBalancer`): a shallow embedding of its state and
operations, followed by theorems about round-robin selection, the health
checker, the byte relay and the dispatcher.

A backend endpoint is an immutable `(host, port)` pair. Network effects
(TCP connect outcomes, `recv` results, `sendall` outcomes) are supplied
to the embedded functions as explicit oracles / event lists, and the
socket operations the code performs (close, connect, relay writes) are
recorded as explicit action traces, so that claims about which sockets
get closed become statements about trace membership.
-/

namespace LoadBalancer

/-- A backend endpoint: `(host, port)`, as in `my_servers`. -/
abbrev Backend := String × Nat

/-- The mutable state of `UniversalLoadBalancer`: the configured bind
address and port, `self.all_backends`, `self.healthy_backends`, and the
round-robin cursor `self.current`.  The `threading.Lock` serialises the
operations; the embedding models the serialised behaviour directly. -/
structure LBState where
  address : String
  port : Nat
  all_backends : List Backend
  healthy_backends : List Backend
  current : Nat
deriving Repr, DecidableEq

/-- `UniversalLoadBalancer.__init__(bind_address, port, backends)`:
stores the backend list, initialises `healthy_backends = list(backends)`
(a copy of the full list) and sets the cursor to `0`. -/
def init (bind_address : String) (port : Nat) (backends : List Backend) : LBState :=
  { address := bind_address
    port := port
    all_backends := backends
    healthy_backends := List.ofFn fun i : Fin backends.length => backends.get i
    current := 0 }

/-- The probe loop of one `health_check` cycle: starting from
`alive = []`, for each `server` in the given list append it to `alive`
exactly when the 1-second TCP connect succeeds.  The connect outcome of
each backend is supplied by the oracle `connect_ok`. -/
def probeLoop (connect_ok : Backend → Bool) : List Backend → List Backend
  | [] => []
  | server :: rest =>
      if connect_ok server then server :: probeLoop connect_ok rest
      else probeLoop connect_ok rest

/-- One cycle of `UniversalLoadBalancer.health_check`: probe every
configured backend, then (under the lock) publish the freshly built
`alive` list as the new `healthy_backends`, replacing it as a whole. -/
def health_check_cycle (connect_ok : Backend → Bool) (s : LBState) : LBState :=
  { s with healthy_backends := probeLoop connect_ok s.all_backends }

/-- `UniversalLoadBalancer.get_next_server`: under the lock, if
`healthy_backends` is empty return `None`; otherwise return
`healthy_backends[current % len(healthy_backends)]` and increment
`current`.  Returns the selected backend (if any) and the new state. -/
def get_next_server (s : LBState) : Option Backend × LBState :=
  if h : s.healthy_backends = [] then
    (none, s)
  else
    (some (s.healthy_backends.get
        ⟨s.current % s.healthy_backends.length,
         Nat.mod_lt _ (List.length_pos_iff_ne_nil.mpr h)⟩),
     { s with current := s.current + 1 })

/-- The state after one `get_next_server` call. -/
def nextState (s : LBState) : LBState := (get_next_server s).2

/-- The backend returned by the `(k+1)`-th of a sequence of successive
`get_next_server` calls starting from state `s`. -/
def selectionAt (s : LBState) (k : Nat) : Option Backend :=
  (get_next_server (nextState^[k] s)).1

/-- One loop-iteration event seen by `proxy_data`: a successful
`recv(4096)` returning `bytes` followed by a successful `sendall`, an
orderly end of stream (`recv` returned `b''`), an exception raised by
`recv`, or an exception raised by `sendall` on the just-received
`bytes`. -/
inductive StepEvent where
  | data (bytes : List Nat)
  | eof
  | recvErr
  | sendErr (bytes : List Nat)
deriving Repr, DecidableEq

/-- A socket operation performed by one relay direction: a completed
`destination.sendall(bytes)`, `source.close()`, or
`destination.close()`. -/
inductive SockAction where
  | sendChunk (bytes : List Nat)
  | closeSource
  | closeDest
deriving Repr, DecidableEq

/-- The `while True` body of `proxy_data` under `try`: returns the list
of completed sends together with `true` iff the loop was left by an
exception (rather than by the `break` on the zero-length read). -/
def relayBody : List StepEvent → List SockAction × Bool
  | [] => ([], false)
  | StepEvent.data b :: rest =>
      let r := relayBody rest
      (SockAction.sendChunk b :: r.1, r.2)
  | StepEvent.eof :: _ => ([], false)
  | StepEvent.recvErr :: _ => ([], true)
  | StepEvent.sendErr _ :: _ => ([], true)

/-- The observable outcome of one `proxy_data` call: the socket actions
it performed, in order, and whether an exception escaped to its
caller. -/
structure RelayOutcome where
  actions : List SockAction
  raised : Bool
deriving Repr, DecidableEq

/-- `UniversalLoadBalancer.proxy_data(source, destination)` on a
terminating session whose loop iterations are described by `events`:
the `except Exception: pass` swallows any loop exception, and the
`finally` block closes `source` and then `destination` on every exit
path. -/
def proxy_data (events : List StepEvent) : RelayOutcome :=
  let body := relayBody events
  { actions := body.1 ++ [SockAction.closeSource, SockAction.closeDest]
    raised := false }

/-- The bytes delivered to the destination by a trace of socket
actions: the concatenation of all completed sends, in order. -/
def writtenBytes : List SockAction → List Nat
  | [] => []
  | SockAction.sendChunk b :: rest => b ++ writtenBytes rest
  | SockAction.closeSource :: rest => writtenBytes rest
  | SockAction.closeDest :: rest => writtenBytes rest

/-- A socket operation performed by `handle_request` for one session:
creating the backend socket, attempting `backend_conn.connect`,
starting the two relay threads, `client_conn.close()`, or
`backend_conn.close()`. -/
inductive DispatchAction where
  | createBackendSocket
  | connectBackend (b : Backend)
  | startRelays
  | closeClient
  | closeBackend
deriving Repr, DecidableEq

/-- `UniversalLoadBalancer.handle_request(client_conn)`: ask
`get_next_server` for a backend; if none, close the client and return.
Otherwise create a backend socket and try to connect (outcome given by
the oracle `connect_ok`); on success start the two `proxy_data`
threads, on failure log and close the client connection.  Returns the
socket actions performed, in order, and the new balancer state. -/
def handle_request (connect_ok : Backend → Bool) (s : LBState) :
    List DispatchAction × LBState :=
  match get_next_server s with
  | (none, s1) => ([DispatchAction.closeClient], s1)
  | (some b, s1) =>
      if connect_ok b then
        ([DispatchAction.createBackendSocket, DispatchAction.connectBackend b,
          DispatchAction.startRelays], s1)
      else
        ([DispatchAction.createBackendSocket, DispatchAction.connectBackend b,
          DispatchAction.closeClient], s1)

/-- An operation that touches the shared balancer state: one
`health_check` publication (with the probe outcomes of that cycle), or
one `get_next_server` call. -/
inductive Op where
  | healthCheck (connect_ok : Backend → Bool)
  | nextServer

/-- Apply one operation to the shared state. -/
def applyOp : Op → LBState → LBState
  | Op.healthCheck ok, s => health_check_cycle ok s
  | Op.nextServer, s => (get_next_server s).2

/-- Run a sequence of operations, left to right. -/
def runOps : List Op → LBState → LBState
  | [], s => s
  | op :: ops, s => runOps ops (applyOp op s)

/-- A sample backend configuration, as in `my_servers`. -/
def exampleBackends : List Backend :=
  [("127.0.0.1", 8001), ("127.0.0.1", 8002), ("127.0.0.1", 8003)]

/-- A freshly constructed balancer over `exampleBackends`. -/
def exampleState : LBState := init "0.0.0.0" 80 exampleBackends

/-- A balancer whose health checker has published an empty healthy
list (all backends down). -/
def emptyHealthyState : LBState :=
  { exampleState with healthy_backends := [] }

/- ### Basic lemmas -/

theorem probeLoop_eq_filter (ok : Backend → Bool) (l : List Backend) :
    probeLoop ok l = l.filter ok := by
  induction l with
  | nil => rfl
  | cons a t ih =>
      by_cases h : ok a <;> simp [probeLoop, List.filter_cons, h, ih]

theorem init_healthy (a : String) (p : Nat) (bs : List Backend) :
    (init a p bs).healthy_backends = bs := by
  simp [init, List.ofFn_get]

theorem get_next_server_nil {s : LBState} (h : s.healthy_backends = []) :
    get_next_server s = (none, s) := by
  simp [get_next_server, h]

theorem get_next_server_cons {s : LBState} (h : s.healthy_backends ≠ []) :
    get_next_server s =
      (some (s.healthy_backends.get
          ⟨s.current % s.healthy_backends.length,
           Nat.mod_lt _ (List.length_pos_iff_ne_nil.mpr h)⟩),
       { s with current := s.current + 1 }) := by
  simp [get_next_server, h]

theorem nextState_of_ne_nil {s : LBState} (h : s.healthy_backends ≠ []) :
    nextState s = { s with current := s.current + 1 } := by
  simp [nextState, get_next_server_cons h]

theorem iterate_nextState (s : LBState) (h : s.healthy_backends ≠ []) (k : Nat) :
    nextState^[k] s = { s with current := s.current + k } := by
  induction k with
  | zero => rfl
  | succ n ih =>
      have h2 : ({ s with current := s.current + n } : LBState).healthy_backends ≠ [] := h
      rw [Function.iterate_succ_apply', ih, nextState_of_ne_nil h2]
      simp [Nat.add_assoc]

theorem selectionAt_eq (s : LBState) (h : s.healthy_backends ≠ []) (k : Nat) :
    selectionAt s k =
      some (s.healthy_backends.get
        ⟨(s.current + k) % s.healthy_backends.length,
         Nat.mod_lt _ (List.length_pos_iff_ne_nil.mpr h)⟩) := by
  have h2 : ({ s with current := s.current + k } : LBState).healthy_backends ≠ [] := h
  rw [selectionAt, iterate_nextState s h k, get_next_server_cons h2]

theorem selection_period (s : LBState) (h : s.healthy_backends ≠ []) (k : Nat) :
    selectionAt s (k + s.healthy_backends.length) = selectionAt s k := by
  rw [selectionAt_eq s h, selectionAt_eq s h]
  have hidx : (s.current + (k + s.healthy_backends.length)) % s.healthy_backends.length =
      (s.current + k) % s.healthy_backends.length := by
    rw [← Nat.add_assoc, Nat.add_mod_right]
  simp [hidx]

theorem selection_window (s : LBState) (h : s.healthy_backends ≠ []) :
    (List.range s.healthy_backends.length).map (selectionAt s) =
      (s.healthy_backends.rotate
        (s.current % s.healthy_backends.length)).map some := by
  apply List.ext_get
  · simp
  · intro n h1 h2
    have hn : n < s.healthy_backends.length := by
      simpa using h1
    have hn2 : n < (s.healthy_backends.rotate
        (s.current % s.healthy_backends.length)).length := by
      simpa [List.length_rotate] using hn
    rw [List.get_map, List.get_map, List.get_range, List.get_rotate,
      selectionAt_eq s h]
    have hidx : (s.current + n) % s.healthy_backends.length =
        (n + s.current % s.healthy_backends.length) % s.healthy_backends.length := by
      rw [Nat.add_comm n, Nat.mod_add_mod, Nat.add_comm]
    simp [hidx]

theorem applyOp_all_backends (op : Op) (s : LBState) :
    (applyOp op s).all_backends = s.all_backends := by
  cases op with
  | healthCheck ok => rfl
  | nextServer =>
      by_cases h : s.healthy_backends = []
      · simp [applyOp, get_next_server_nil h]
      · simp [applyOp, get_next_server_cons h]

theorem healthy_subset_applyOp (op : Op) (s : LBState)
    (h : ∀ b ∈ s.healthy_backends, b ∈ s.all_backends) :
    ∀ b ∈ (applyOp op s).healthy_backends, b ∈ (applyOp op s).all_backends := by
  cases op with
  | healthCheck ok =>
      intro b hb
      simp only [applyOp, health_check_cycle, probeLoop_eq_filter] at hb ⊢
      exact List.mem_of_mem_filter hb
  | nextServer =>
      by_cases hs : s.healthy_backends = []
      · simpa [applyOp, get_next_server_nil hs] using h
      · simpa [applyOp, get_next_server_cons hs] using h

theorem healthy_subset_runOps (ops : List Op) (s : LBState)
    (h : ∀ b ∈ s.healthy_backends, b ∈ s.all_backends) :
    ∀ b ∈ (runOps ops s).healthy_backends, b ∈ (runOps ops s).all_backends := by
  induction ops generalizing s with
  | nil => exact h
  | cons op t ih => exact ih _ (healthy_subset_applyOp op s h)

theorem relayBody_data_eof (chunks : List (List Nat)) :
    relayBody (chunks.map StepEvent.data ++ [StepEvent.eof]) =
      (chunks.map SockAction.sendChunk, false) := by
  induction chunks with
  | nil => rfl
  | cons c t ih => simp [relayBody, ih]

theorem writtenBytes_append (xs ys : List SockAction) :
    writtenBytes (xs ++ ys) = writtenBytes xs ++ writtenBytes ys := by
  induction xs with
  | nil => rfl
  | cons a t ih => cases a <;> simp [writtenBytes, ih]

theorem writtenBytes_sends (chunks : List (List Nat)) :
    writtenBytes (chunks.map SockAction.sendChunk) = chunks.flatten := by
  induction chunks with
  | nil => rfl
  | cons c t ih => simp [writtenBytes, ih]

/- ### Claim theorems -/

/-- C1: fails on the code.  When the outbound connect to the selected
backend raises, `handle_request` closes only the client connection:
`backend_conn.close()` is never called on the failure path, so the
backend socket created for the session is left open.  Evaluated at a
failing input — a fresh balancer over `exampleBackends` with a connect
oracle that always fails — the session's action trace contains the
client close but no backend close. -/
theorem C1_backend_socket_left_open_on_connect_failure :
    (handle_request (fun _ => false) exampleState).1 =
      [DispatchAction.createBackendSocket,
       DispatchAction.connectBackend ("127.0.0.1", 8001),
       DispatchAction.closeClient] ∧
    DispatchAction.closeClient ∈ (handle_request (fun _ => false) exampleState).1 ∧
    DispatchAction.closeBackend ∉ (handle_request (fun _ => false) exampleState).1 := by
  decide

/-- C2: against a fixed non-empty healthy set of size N, the sequence
of successive `get_next_server` results is periodic with period N; one
period equals the healthy list rotated to the cursor position, mapped
into `some` — so each of the N backends is returned exactly once per
period, in the healthy list's order — and with the cursor at its
initial value 0 one period is exactly the healthy list itself, so for
healthy set [A, B, C] the first three calls return A, B, C. -/
theorem C2_round_robin_periodic (s : LBState) (h : s.healthy_backends ≠ []) :
    (∀ k, selectionAt s (k + s.healthy_backends.length) = selectionAt s k) ∧
    (List.range s.healthy_backends.length).map (selectionAt s) =
      (s.healthy_backends.rotate
        (s.current % s.healthy_backends.length)).map some ∧
    ((List.range s.healthy_backends.length).map (selectionAt s)).Perm
      (s.healthy_backends.map some) ∧
    (s.current = 0 →
      (List.range s.healthy_backends.length).map (selectionAt s) =
        s.healthy_backends.map some) := by
  refine ⟨selection_period s h, selection_window s h, ?_, ?_⟩
  · rw [selection_window s h]
    exact (List.rotate_perm _ _).map some
  · intro hc
    rw [selection_window s h, hc]
    simp [Nat.zero_mod, List.rotate_zero]

/-- Witness for C2 at healthy set [A, B, C] with cursor 0: the first
three selections are A, B, C and the fourth repeats the first. -/
theorem C2_round_robin_periodic_witness :
    (List.range 3).map (selectionAt exampleState) =
      [some ("127.0.0.1", 8001), some ("127.0.0.1", 8002),
       some ("127.0.0.1", 8003)] ∧
    selectionAt exampleState (0 + 3) = selectionAt exampleState 0 := by
  have h := C2_round_robin_periodic exampleState (by decide)
  refine ⟨?_, h.1 0⟩
  have h4 := h.2.2.2 (by rfl)
  exact h4.trans (by decide)

/-- C3: on a state with a non-empty healthy list, one `get_next_server`
call returns the element of the healthy list at index
`current % len(healthy_backends)` and increments the cursor `current`
by exactly one. -/
theorem C3_get_next_server_selects_mod_and_increments
    (s : LBState) (h : s.healthy_backends ≠ []) :
    (get_next_server s).1 =
      some (s.healthy_backends.get
        ⟨s.current % s.healthy_backends.length,
         Nat.mod_lt _ (List.length_pos_iff_ne_nil.mpr h)⟩) ∧
    (get_next_server s).2.current = s.current + 1 := by
  rw [get_next_server_cons h]
  exact ⟨rfl, rfl⟩

/-- Witness for C3 at healthy set [A, B, C] with cursor 5: the call
returns the backend at index 5 % 3 = 2 and moves the cursor to 6. -/
theorem C3_get_next_server_selects_mod_and_increments_witness :
    (get_next_server { exampleState with current := 5 }).1 =
      some ("127.0.0.1", 8003) ∧
    (get_next_server { exampleState with current := 5 }).2.current = 6 := by
  have h := C3_get_next_server_selects_mod_and_increments
    { exampleState with current := 5 } (by decide)
  exact ⟨h.1.trans (by decide), h.2⟩

/-- C4: with an empty healthy list, `get_next_server` returns the
defined empty result `none` rather than raising, and `handle_request`
then performs exactly one socket action — closing the client
connection — so no backend connect is ever attempted, and the balancer
state is left unchanged. -/
theorem C4_empty_healthy_rejects_client (ok : Backend → Bool) (s : LBState)
    (h : s.healthy_backends = []) :
    (get_next_server s).1 = none ∧
    (handle_request ok s).1 = [DispatchAction.closeClient] ∧
    (handle_request ok s).2 = s := by
  simp [handle_request, get_next_server_nil h]

/-- Witness for C4 at a concrete state with no healthy backend. -/
theorem C4_empty_healthy_rejects_client_witness :
    (get_next_server emptyHealthyState).1 = none ∧
    (handle_request (fun _ => true) emptyHealthyState).1 =
      [DispatchAction.closeClient] ∧
    (handle_request (fun _ => true) emptyHealthyState).2 = emptyHealthyState :=
  C4_empty_healthy_rejects_client (fun _ => true) emptyHealthyState rfl

/-- C5: in every reachable state — after construction and after any
sequence of health-check publications and selections — every member of
the healthy list is a member of the configured list `all_backends`
(the empty healthy list satisfies this vacuously). -/
theorem C5_healthy_always_subset_of_all (ops : List Op) (a : String)
    (p : Nat) (bs : List Backend) :
    ∀ b ∈ (runOps ops (init a p bs)).healthy_backends,
      b ∈ (runOps ops (init a p bs)).all_backends := by
  apply healthy_subset_runOps
  intro b hb
  rw [init_healthy] at hb
  exact hb

/-- Witness for C5: after a health cycle keeping only port 8001 and one
selection, the backend still listed healthy is a configured backend. -/
theorem C5_healthy_always_subset_of_all_witness :
    ("127.0.0.1", 8001) ∈
      (runOps [Op.healthCheck (fun b => b.2 == 8001), Op.nextServer]
        (init "0.0.0.0" 80 exampleBackends)).all_backends :=
  C5_healthy_always_subset_of_all
    [Op.healthCheck (fun b => b.2 == 8001), Op.nextServer]
    "0.0.0.0" 80 exampleBackends ("127.0.0.1", 8001) (by decide)

/-- C6: one health-check cycle publishes as the new healthy list exactly
the subsequence of `all_backends`, in configured order, whose probes
succeeded, replacing the previous list as a whole: the published list is
the filter of `all_backends` by the probe outcome, hence a sublist of
`all_backends`, membership in it is equivalent to being a configured
backend whose probe succeeded, and the configured list is untouched. -/
theorem C6_health_check_publishes_successful_probes
    (ok : Backend → Bool) (s : LBState) :
    (health_check_cycle ok s).healthy_backends = s.all_backends.filter ok ∧
    List.Sublist (health_check_cycle ok s).healthy_backends s.all_backends ∧
    (∀ b, b ∈ (health_check_cycle ok s).healthy_backends ↔
      (b ∈ s.all_backends ∧ ok b = true)) ∧
    (health_check_cycle ok s).all_backends = s.all_backends := by
  have hf : (health_check_cycle ok s).healthy_backends =
      s.all_backends.filter ok := probeLoop_eq_filter ok s.all_backends
  refine ⟨hf, ?_, ?_, rfl⟩
  · rw [hf]
    exact List.filter_sublist _
  · intro b
    rw [hf]
    simp [List.mem_filter]

/-- C7: if the source delivers exactly the bytes of `chunks` — each
read nonempty and at most 4096 bytes — and then signals end of stream
with a zero-length read, `proxy_data` performs exactly one completed
send per chunk, in order, so the destination receives the N source
bytes unmodified and in order, and the destination close follows the
last send. -/
theorem C7_relay_delivers_stream_then_closes (chunks : List (List Nat))
    (h : ∀ c ∈ chunks, c ≠ [] ∧ c.length ≤ 4096) :
    (proxy_data (chunks.map StepEvent.data ++ [StepEvent.eof])).actions =
      chunks.map SockAction.sendChunk ++
        [SockAction.closeSource, SockAction.closeDest] ∧
    writtenBytes
        (proxy_data (chunks.map StepEvent.data ++ [StepEvent.eof])).actions =
      chunks.flatten := by
  have ha : (proxy_data (chunks.map StepEvent.data ++ [StepEvent.eof])).actions =
      chunks.map SockAction.sendChunk ++
        [SockAction.closeSource, SockAction.closeDest] := by
    simp [proxy_data, relayBody_data_eof]
  refine ⟨ha, ?_⟩
  rw [ha, writtenBytes_append, writtenBytes_sends]
  simp [writtenBytes]

/-- Witness for C7 on the source stream [1, 2] then [3] then EOF. -/
theorem C7_relay_delivers_stream_then_closes_witness :
    (proxy_data ([[1, 2], [3]].map StepEvent.data ++ [StepEvent.eof])).actions =
      [SockAction.sendChunk [1, 2], SockAction.sendChunk [3],
       SockAction.closeSource, SockAction.closeDest] ∧
    writtenBytes
        (proxy_data ([[1, 2], [3]].map StepEvent.data ++ [StepEvent.eof])).actions =
      [1, 2, 3] := by
  have h := C7_relay_delivers_stream_then_closes [[1, 2], [3]] (by decide)
  exact ⟨h.1.trans (by decide), h.2.trans (by decide)⟩

/-- C8: however a terminating relay direction ends — orderly end of
stream, an error raised by recv, or an error raised by sendall —
`proxy_data` closes both its source socket and its destination socket,
and no exception escapes to its caller. -/
theorem C8_relay_closes_both_and_swallows_errors (events : List StepEvent) :
    (proxy_data events).raised = false ∧
    SockAction.closeSource ∈ (proxy_data events).actions ∧
    SockAction.closeDest ∈ (proxy_data events).actions := by
  refine ⟨rfl, ?_, ?_⟩ <;> simp [proxy_data]

/-- C9: only a successful selection moves the cursor: a health-check
publication replaces the healthy list but leaves `current` unchanged —
it is never reset when the healthy set shrinks, grows or becomes
empty — and a `get_next_server` call on an empty healthy list leaves
the whole state, in particular the cursor, unchanged. -/
theorem C9_cursor_only_moved_by_selection (ok : Backend → Bool) (s : LBState) :
    (health_check_cycle ok s).current = s.current ∧
    (s.healthy_backends = [] → (get_next_server s).2 = s) := by
  refine ⟨rfl, fun h => ?_⟩
  rw [get_next_server_nil h]

/-- Witness for C9: a cycle marking every backend down keeps the
cursor, and a selection against the emptied healthy list keeps the
whole state. -/
theorem C9_cursor_only_moved_by_selection_witness :
    (health_check_cycle (fun _ => false) emptyHealthyState).current =
      emptyHealthyState.current ∧
    (get_next_server emptyHealthyState).2 = emptyHealthyState := by
  have h := C9_cursor_only_moved_by_selection (fun _ => false) emptyHealthyState
  exact ⟨h.1, h.2 rfl⟩

/-- C10: immediately after construction, before any health-check cycle
has published, the healthy list is a copy of the full configured
backend list in the same order and the cursor starts at 0, so every
configured backend is eligible for selection before it has ever been
probed. -/
theorem C10_initial_healthy_is_full_configured_list (a : String) (p : Nat)
    (bs : List Backend) :
    (init a p bs).healthy_backends = bs ∧
    (init a p bs).all_backends = bs ∧
    (init a p bs).current = 0 :=
  ⟨init_healthy a p bs, rfl, rfl⟩

end LoadBalancer
